import Mathlib

/-!
Verification of the data-quality validation logic of the
database-testing-framework repository.

Modelling conventions, fixed throughout this file:

* Python floats (prices, totals, timestamps) are modelled as rationals;
  decimal literals such as 0.01 become 1/100.  Timestamps are rationals
  measured in seconds, so a difference of timestamps is directly the
  total_seconds value the source computes.
* Python strings on which the source performs character-level work
  (emails) are modelled as List Char; other string fields stay String.
* Each pytest check is modelled by the list of findings it accumulates
  plus a Bool saying whether the check reports failure.  A finding list
  that the source feeds into an assert-empty (or pytest.fail) is the
  Critical path: failure is exactly non-emptiness of that list.  Lists
  that are only printed are Warning/advisory: they never make the Bool
  true, mirroring the absence of an assert in the source.
* The SQLAlchemy session used by the constraint-enforcement probes is
  modelled as a pair of a committed record list and a pending record
  list.  add appends to pending; commit either moves pending into
  committed (acceptance) or, when the store enforces the violated
  constraint, rejects and leaves the session unchanged; rollback clears
  pending only.  In particular a rollback that runs after a successful
  commit removes nothing, exactly as in SQLAlchemy where commit ends the
  transaction.  pytest.fail raises an exception deriving from
  BaseException, so the source blocks of the form
  try commit / pytest.fail / except Exception do not catch it: on the
  accepted branch of those probes no rollback runs.
* Python regular-expression semantics are modelled faithfully; in
  particular the dollar anchor of re.match matches at the end of the
  string or just before a single newline that ends the string.
-/

/-- User record, from config/models.py (table users).  The age column is
nullable, hence Option. -/
structure User where
  id : Nat
  name : String
  email : List Char
  created_at : ℚ
  is_active : Bool
  age : Option Int
deriving DecidableEq

/-- Product record, from config/models.py (table products). -/
structure Product where
  id : Nat
  name : String
  sku : String
  price : ℚ
  stock : Int
  description : String
  created_at : ℚ
deriving DecidableEq

/-- Order line item, from config/models.py (table order_items). -/
structure OrderItem where
  id : Nat
  order_id : Nat
  product_id : Nat
  quantity : Int
  price : ℚ
deriving DecidableEq

/-- Order record, from config/models.py (table orders).  The items field
models the ORM relationship Order.items used by the consistency rule. -/
structure Order where
  id : Nat
  user_id : Nat
  status : String
  total_amount : ℚ
  created_at : ℚ
  items : List OrderItem
deriving DecidableEq

/-! ## Price range rule (tests/data_quality/test_value_ranges.py,
test_price_in_valid_range) -/

/-- The three branches of the if/elif/elif chain of
test_price_in_valid_range; all three append to the same invalid_prices
list. -/
inductive PriceIssue where
  | negativePrice
  | zeroPrice
  | overMillion
deriving DecidableEq

/-- First-match classification of a price, translated from the
if price < 0 / elif price == 0 / elif price > 1000000 chain. -/
def price_issue (p : Product) : Option PriceIssue :=
  if p.price < 0 then some PriceIssue.negativePrice
  else if p.price = 0 then some PriceIssue.zeroPrice
  else if p.price > 1000000 then some PriceIssue.overMillion
  else none

/-- The invalid_prices list accumulated by test_price_in_valid_range:
one entry per product falling in any of the three branches. -/
def invalid_prices (ps : List Product) : List (Product × PriceIssue) :=
  ps.filterMap fun p => (price_issue p).map fun i => (p, i)

/-- test_price_in_valid_range asserts len(invalid_prices) == 0, so the
rule reports failure exactly when the list is non-empty. -/
def price_range_fails (ps : List Product) : Bool :=
  !(invalid_prices ps).isEmpty

/-- The list built by test_negative_price_detection
(tests/integration/test_data_integrity.py): products with price <= 0. -/
def invalid_price_products (ps : List Product) : List Product :=
  ps.filter fun p => decide (p.price ≤ 0)

/-- test_negative_price_detection asserts its list empty. -/
def negative_price_detection_fails (ps : List Product) : Bool :=
  !(invalid_price_products ps).isEmpty

/-! ## Age range rule (tests/data_quality/test_value_ranges.py,
test_age_in_valid_range) -/

/-- A user lands in invalid_ages when age is non-null and outside 0-120;
the loop does continue on age None. -/
def age_is_invalid (u : User) : Bool :=
  match u.age with
  | none => false
  | some a => decide (a < 0 ∨ 120 < a)

/-- A user lands in suspicious_ages via the elif age < 13 branch, so only
when the invalid branch was not taken. -/
def age_is_suspicious (u : User) : Bool :=
  match u.age with
  | none => false
  | some a => !(decide (a < 0 ∨ 120 < a)) && decide (a < 13)

/-- The invalid_ages list of test_age_in_valid_range. -/
def invalid_ages (us : List User) : List User :=
  us.filter age_is_invalid

/-- The suspicious_ages list of test_age_in_valid_range; it is only
printed, never asserted on. -/
def suspicious_ages (us : List User) : List User :=
  us.filter age_is_suspicious

/-- test_age_in_valid_range asserts len(invalid_ages) == 0; the
suspicious list does not enter the assert. -/
def age_range_fails (us : List User) : Bool :=
  !(invalid_ages us).isEmpty

/-! ## Order total consistency rule
(tests/integration/test_data_integrity.py,
test_order_total_matches_items_sum) -/

/-- calculated_total of an order: sum of quantity * price over its
items. -/
def calculated_total (o : Order) : ℚ :=
  (o.items.map fun it => (it.quantity : ℚ) * it.price).sum

/-- One entry of the inconsistencies list: the dict built by the source
with stored total, calculated total and signed difference
stored - calculated. -/
structure TotalMismatch where
  order_id : Nat
  stored_total : ℚ
  calc_sum : ℚ
  difference : ℚ
deriving DecidableEq

/-- The inconsistencies list of test_order_total_matches_items_sum: an
order is flagged when the absolute difference exceeds 0.01. -/
def total_inconsistencies (orders : List Order) : List TotalMismatch :=
  orders.filterMap fun o =>
    if 1/100 < |o.total_amount - calculated_total o| then
      some ⟨o.id, o.total_amount, calculated_total o,
            o.total_amount - calculated_total o⟩
    else none

/-- The test asserts len(inconsistencies) == 0. -/
def order_totals_fails (orders : List Order) : Bool :=
  !(total_inconsistencies orders).isEmpty

/-! ## Duplicate-email rule (tests/data_quality/test_duplicates.py,
test_no_duplicate_emails) -/

/-- Lowercase normalisation of an email, as func.lower / str.lower on the
ASCII range. -/
def lower_email (u : User) : List Char :=
  u.email.map Char.toLower

/-- GROUP BY lower(email) with COUNT: one row per distinct normalised
value together with the number of users carrying it. -/
def email_counts (users : List User) : List (List Char × Nat) :=
  ((users.map lower_email).dedup).map fun e =>
    (e, (users.map lower_email).count e)

/-- HAVING count > 1: the duplicates row list of
test_no_duplicate_emails. -/
def duplicate_emails (users : List User) : List (List Char × Nat) :=
  (email_counts users).filter fun g => decide (1 < g.2)

/-- The test asserts len(duplicates) == 0. -/
def duplicate_emails_fails (users : List User) : Bool :=
  !(duplicate_emails users).isEmpty

/-! ## Referential-integrity rules
(tests/integration/test_data_integrity.py) -/

/-- test_no_orphaned_orders: orders whose user_id matches no user id
(outer join with filter User.id == None). -/
def orphaned_orders (users : List User) (orders : List Order) : List Order :=
  orders.filter fun o => !(users.any fun u => u.id == o.user_id)

/-- test_no_orphaned_order_items: order items whose order_id matches no
order id. -/
def orphaned_order_items (orders : List Order) (items : List OrderItem) :
    List OrderItem :=
  items.filter fun it => !(orders.any fun o => o.id == it.order_id)

/-- test_no_orphaned_orders asserts its list empty. -/
def orphaned_orders_fails (users : List User) (orders : List Order) : Bool :=
  !(orphaned_orders users orders).isEmpty

/-- test_no_orphaned_order_items asserts its list empty. -/
def orphaned_order_items_fails (orders : List Order)
    (items : List OrderItem) : Bool :=
  !(orphaned_order_items orders items).isEmpty

/-! ## Suspicious-email rule (tests/data_quality/test_email_validation.py,
test_email_suspicious_patterns) -/

/-- Substring containment, the semantics of re.search for a literal
pattern. -/
def contains_sub (pat s : List Char) : Bool :=
  s.tails.any fun t => pat.isPrefixOf t

/-- Head test for the final regex of the suspicious list: five digits
followed directly by an at sign.  re.search finds a match of 5+ digits
followed by an at sign exactly when some tail starts this way. -/
def digit_run_head : List Char → Bool
  | a :: b :: c :: d :: e :: f :: _ =>
      a.isDigit && b.isDigit && c.isDigit && d.isDigit && e.isDigit &&
      (f == '@')
  | _ => false

/-- Occurrence anywhere of five digits directly before an at sign. -/
def has_digit_run_before_at (s : List Char) : Bool :=
  s.tails.any digit_run_head

/-- The seven literal suspicious patterns of the source list. -/
def suspicious_literals : List (List Char) :=
  ["test@test".toList, "admin@admin".toList, "fake@".toList,
   "noreply@".toList, "@mailinator".toList, "@guerrillamail".toList,
   "@10minutemail".toList]

/-- A lowercased email is suspicious when any pattern of the source list
matches somewhere in it. -/
def is_suspicious_email (s : List Char) : Bool :=
  suspicious_literals.any (fun pat => contains_sub pat s) ||
  has_digit_run_before_at s

/-- The suspicious_emails list: the inner for-loop breaks after the first
matching pattern, so each user is appended at most once — a filter. -/
def suspicious_emails (users : List User) : List User :=
  users.filter fun u => is_suspicious_email (lower_email u)

/-- The threshold gate of test_email_suspicious_patterns:
pytest.fail runs only if len(suspicious) > len(users) * 0.1. -/
def suspicious_emails_fails (users : List User) : Bool :=
  decide (((users.length : ℚ) * (1/10)) < ((suspicious_emails users).length : ℚ))

/-! ## Near-duplicate-order rule (tests/data_quality/test_duplicates.py,
test_exact_duplicate_orders) -/

/-- Boolean key order used by the ORDER BY user_id, created_at query. -/
def order_key_le (a b : Order) : Bool :=
  decide (a.user_id < b.user_id) ||
  ((a.user_id == b.user_id) && decide (a.created_at ≤ b.created_at))

/-- The sorted order sequence the test iterates over. -/
def sorted_orders (orders : List Order) : List Order :=
  orders.mergeSort order_key_le

/-- The adjacent-pair comparison of the source loop: same user, exactly
equal total, timestamps under 60 seconds apart. -/
def is_near_duplicate (a b : Order) : Bool :=
  (a.user_id == b.user_id) && decide (a.total_amount = b.total_amount) &&
  decide (|a.created_at - b.created_at| < 60)

/-- The loop for i in range(len(orders) - 1) comparing positions i and
i+1 of the sorted list. -/
def adjacent_duplicate_orders : List Order → List (Order × Order)
  | a :: b :: rest =>
      (if is_near_duplicate a b then [(a, b)] else []) ++
      adjacent_duplicate_orders (b :: rest)
  | _ => []

/-- The duplicates list of test_exact_duplicate_orders. -/
def exact_duplicate_orders (orders : List Order) : List (Order × Order) :=
  adjacent_duplicate_orders (sorted_orders orders)

/-- test_exact_duplicate_orders contains no assert and no pytest.fail:
whatever it finds is only printed, so the check never reports
failure. -/
def exact_duplicate_orders_fails (_orders : List Order) : Bool :=
  false

/-! ## Email format checks (tests/data_quality/test_email_validation.py) -/

/-- The 0-9 range of the regex character classes. -/
def is_ascii_digit (c : Char) : Bool :=
  48 ≤ c.toNat && c.toNat ≤ 57

/-- The a-zA-Z ranges of the regex character classes. -/
def is_ascii_alpha (c : Char) : Bool :=
  (65 ≤ c.toNat && c.toNat ≤ 90) || (97 ≤ c.toNat && c.toNat ≤ 122)

/-- Character class of the local part of the regex pattern:
a-zA-Z0-9 and . _ % + - . -/
def is_local_char (c : Char) : Bool :=
  is_ascii_alpha c || is_ascii_digit c ||
  c == '.' || c == '_' || c == '%' || c == '+' || c == '-'

/-- Character class of the domain part of the regex pattern:
a-zA-Z0-9, dot and hyphen. -/
def is_domain_char (c : Char) : Bool :=
  is_ascii_alpha c || is_ascii_digit c || c == '.' || c == '-'

/-- Consume one-or-more local characters up to an at sign and return the
remainder; the local class excludes the at sign itself, so the match is
deterministic.  The caller checks the first character separately so that
the local part is non-empty. -/
def after_at_local : List Char → Option (List Char)
  | [] => none
  | c :: cs =>
      if c == '@' then some cs
      else if is_local_char c then after_at_local cs else none

/-- Match of the part after the at sign against domain-plus-dot-plus-tld.
The tld of a successful match is forced to be the maximal alphabetic
suffix, preceded by a literal dot, with a non-empty domain run before
it. -/
def domain_match (r : List Char) : Bool :=
  let rev := r.reverse
  let tld := rev.takeWhile is_ascii_alpha
  let rest := rev.dropWhile is_ascii_alpha
  decide (2 ≤ tld.length) &&
  (match rest with
   | c :: d => (c == '.') && (!d.isEmpty) && d.all is_domain_char
   | [] => false)

/-- Core match of the email regex of test_email_regex_pattern against the
whole string (no trailing-newline allowance yet). -/
def regex_core_match : List Char → Bool
  | [] => false
  | c :: cs =>
      is_local_char c &&
      (match after_at_local cs with
       | some r => domain_match r
       | none => false)

/-- Python re.match with a trailing dollar anchor: the dollar also
matches just before a single newline ending the string, so a string that
ends in one newline matches whenever the rest matches. -/
def py_fullmatch_email (s : List Char) : Bool :=
  regex_core_match s ||
  (match s.getLast? with
   | some c => (c == '\n') && regex_core_match s.dropLast
   | none => false)

/-- Python str.split with a one-character separator: always returns one
more piece than there are separators, empty pieces included. -/
def py_split (sep : Char) : List Char → List (List Char)
  | [] => [[]]
  | c :: cs =>
      if c == sep then [] :: py_split sep cs
      else
        match py_split sep cs with
        | [] => [[c]]
        | h :: t => (c :: h) :: t

/-- test_email_contains_at_symbol flags an email exactly when it has no
at sign. -/
def at_symbol_missing (e : List Char) : Bool :=
  !(e.contains '@')

/-- test_email_has_domain: for emails holding an at sign, flag when the
split is not exactly two non-empty parts, or the part after the at sign
holds no dot. -/
def domain_structure_violation (e : List Char) : Bool :=
  if e.contains '@' then
    match py_split '@' e with
    | [l, d] =>
        if l.isEmpty || d.isEmpty then true else !(d.contains '.')
    | _ => true
  else false

/-- The character set removed by Python str.strip with no argument
(str.isspace characters). -/
def py_is_space (c : Char) : Bool :=
  (9 ≤ c.toNat && c.toNat ≤ 13) || (28 ≤ c.toNat && c.toNat ≤ 32) ||
  c.toNat == 0x85 || c.toNat == 0xa0 || c.toNat == 0x1680 ||
  (0x2000 ≤ c.toNat && c.toNat ≤ 0x200a) || c.toNat == 0x2028 ||
  c.toNat == 0x2029 || c.toNat == 0x202f || c.toNat == 0x205f ||
  c.toNat == 0x3000

/-- Python str.strip with no argument. -/
def py_strip (s : List Char) : List Char :=
  ((s.dropWhile py_is_space).reverse.dropWhile py_is_space).reverse

/-- First branch of test_email_no_whitespace: the email differs from its
stripped form. -/
def strip_violation (e : List Char) : Bool :=
  decide (py_strip e ≠ e)

/-- Second branch of test_email_no_whitespace: the email holds a space
character. -/
def space_violation (e : List Char) : Bool :=
  e.contains ' '

/-! ## Constraint-enforcement probes
(tests/integration/test_data_integrity.py, classes
TestForeignKeyConstraints and TestConstraintViolations) -/

/-- A SQLAlchemy session over one record type: rows already committed to
the store plus rows added to the session but not yet committed. -/
structure Session (α : Type) where
  committed : List α
  pending : List α
deriving DecidableEq

/-- db_session.add. -/
def session_add {α : Type} (s : Session α) (r : α) : Session α :=
  ⟨s.committed, s.pending ++ [r]⟩

/-- db_session.rollback: discards pending rows only; rows already
committed stay. -/
def session_rollback {α : Type} (s : Session α) : Session α :=
  ⟨s.committed, []⟩

/-- db_session.commit.  When the store enforces the probed constraint and
some pending row violates it against the committed rows, the commit is
rejected (first component false) and the session is left as it was;
otherwise pending rows become committed.  The enforced flag models
whether the backing store enforces the constraint at all (SQLite ships
with foreign-key enforcement off, for example). -/
def session_commit {α : Type} (enforced : Bool)
    (violates : List α → α → Bool) (s : Session α) : Bool × Session α :=
  if enforced && s.pending.any (violates s.committed) then
    (false, s)
  else
    (true, ⟨s.committed ++ s.pending, []⟩)

/-- Outcome of one probe: whether the pytest test reports failure,
whether the store accepted the violating insert, and the session left
behind. -/
structure ProbeResult (α : Type) where
  test_failed : Bool
  accepted : Bool
  final : Session α
deriving DecidableEq

/-- An order violates the users foreign key when its user_id matches no
existing user id. -/
def order_fk_violates (users : List User) (_committed : List Order)
    (o : Order) : Bool :=
  !(users.any fun u => u.id == o.user_id)

/-- The order built by test_cannot_insert_order_with_invalid_user_id:
user_id 99999, status pending, total 100.00. -/
def probe_order : Order :=
  ⟨0, 99999, "pending", 100, 0, []⟩

/-- test_cannot_insert_order_with_invalid_user_id: add the invalid
order and commit.  If the commit succeeds the test prints a warning and
rolls back; if the commit raises, it prints and rolls back.  Neither
branch asserts or calls pytest.fail, so the test never reports
failure. -/
def fk_probe (enforced : Bool) (users : List User) (s : Session Order) :
    ProbeResult Order :=
  let s1 := session_add s probe_order
  let r := session_commit enforced (order_fk_violates users) s1
  if r.1 then ⟨false, true, session_rollback r.2⟩
  else ⟨false, false, session_rollback r.2⟩

/-- A user violates the unique-email constraint when a committed user
carries the same email. -/
def email_violates (committed : List User) (u : User) : Bool :=
  committed.any fun v => v.email == u.email

/-- test_duplicate_email_rejected: add a user with a duplicate email and
commit.  If the commit succeeds, pytest.fail runs; its exception derives
from BaseException, so the except-Exception handler does not catch it
and no rollback runs on this branch.  If the commit raises, the handler
rolls back and the test passes. -/
def duplicate_email_probe (enforced : Bool) (s : Session User)
    (newUser : User) : ProbeResult User :=
  let s1 := session_add s newUser
  let r := session_commit enforced email_violates s1
  if r.1 then ⟨true, true, r.2⟩
  else ⟨false, false, session_rollback r.2⟩

/-- A product violates the unique-sku constraint when a committed product
carries the same sku. -/
def sku_violates (committed : List Product) (p : Product) : Bool :=
  committed.any fun q => q.sku == p.sku

/-- test_duplicate_sku_rejected, same shape as the duplicate-email
probe. -/
def duplicate_sku_probe (enforced : Bool) (s : Session Product)
    (newProduct : Product) : ProbeResult Product :=
  let s1 := session_add s newProduct
  let r := session_commit enforced sku_violates s1
  if r.1 then ⟨true, true, r.2⟩
  else ⟨false, false, session_rollback r.2⟩

/-! ## Concrete datasets used by counterexamples and witnesses -/

/-- A product priced at zero, its price inside [0, 1000000]. -/
def zero_price_product : Product :=
  ⟨1, "Free sample", "SKU-1", 0, 5, "", 0⟩

/-- A normally priced product. -/
def normal_product : Product :=
  ⟨2, "Widget", "SKU-2", 19, 3, "", 0⟩

/-- Demo user list for the probe examples. -/
def demo_users : List User :=
  [⟨1, "Alice", "alice@example.com".toList, 0, true, some 30⟩]

/-- Demo committed orders for the probe examples. -/
def demo_orders : List Order :=
  [⟨1, 1, "completed", 50, 0, []⟩]

/-- Demo committed products for the sku probe example. -/
def demo_products : List Product :=
  [⟨1, "Widget", "SKU-10", 10, 2, "", 0⟩]

/-- A product duplicating the sku of demo_products. -/
def dup_sku_product : Product :=
  ⟨2, "Different Product", "SKU-10", 99, 10, "", 0⟩

/-- Scenario B of the spec: stored total 100.00, one item of quantity 3
at price 33.00. -/
def scenario_b_order : Order :=
  ⟨7, 1, "pending", 100, 0, [⟨1, 7, 1, 3, 33⟩]⟩

/-- Two users whose emails agree after lowercasing. -/
def jane_upper : User :=
  ⟨1, "Jane", "Jane@Example.com".toList, 0, true, some 30⟩

/-- Second of the case-variant pair. -/
def jane_lower : User :=
  ⟨2, "Jane", "jane@example.com".toList, 0, true, some 31⟩

/-- Orphan-scenario parent user. -/
def scenario_c_user : User :=
  ⟨1, "Ada", "ada@example.com".toList, 0, true, some 40⟩

/-- Orphan-scenario order, referencing the existing user. -/
def scenario_c_order : Order :=
  ⟨1, 1, "pending", 10, 0, []⟩

/-- An item whose order_id 999 matches no order. -/
def orphan_item : OrderItem :=
  ⟨2, 999, 1, 1, 10⟩

/-- An item attached to the existing order. -/
def resolved_item : OrderItem :=
  ⟨1, 1, 1, 1, 10⟩

/-- A user with a suspicious email (matches the fake@ pattern). -/
def sus_user (i : Nat) : User :=
  ⟨i, "S", "fake@mail.com".toList, 0, true, some 30⟩

/-- A user with an unremarkable email. -/
def ok_user (i : Nat) : User :=
  ⟨i, "O", "user@example.com".toList, 0, true, some 30⟩

/-- 100 users of which the first 15 are suspicious. -/
def users_15_of_100 : List User :=
  (List.range 100).map fun i => if i < 15 then sus_user i else ok_user i

/-- 100 users of which the first 5 are suspicious. -/
def users_5_of_100 : List User :=
  (List.range 100).map fun i => if i < 5 then sus_user i else ok_user i

/-! ## Helper lemmas -/

/-- A Nodup list filters to the singleton of its unique element
satisfying the predicate. -/
theorem filter_eq_single {α : Type} (l : List α) (p : α → Bool) (a : α)
    (hnd : l.Nodup) (ha : a ∈ l) (hpa : p a = true)
    (hother : ∀ b ∈ l, b ≠ a → p b = false) : l.filter p = [a] := by
  induction l with
  | nil => cases ha
  | cons c t ih =>
      rcases List.nodup_cons.mp hnd with ⟨hct, hnt⟩
      rcases List.mem_cons.mp ha with hca | hat
      · subst hca
        rw [List.filter_cons_of_pos hpa]
        have ht : t.filter p = [] := by
          apply List.filter_eq_nil_iff.mpr
          intro b hb
          have hba : b ≠ a := fun h => hct (h ▸ hb)
          simp [hother b (List.mem_cons_of_mem a hb) hba]
        rw [ht]
      · have hca : c ≠ a := fun h => hct (h ▸ hat)
        rw [List.filter_cons_of_neg
             (by simp [hother c (List.mem_cons_self c t) hca])]
        exact ih hnt hat fun b hb hba =>
          hother b (List.mem_cons_of_mem c hb) hba

/-- A product priced exactly at zero takes the second branch of the
price chain. -/
theorem price_issue_of_zero (p : Product) (h : p.price = 0) :
    price_issue p = some PriceIssue.zeroPrice := by
  simp [price_issue, h]

/-- Claim C1, counterexample: a dataset whose only price anomaly is a
product priced exactly 0 (the other price lies in (0, 1000000]).  The
price-range rule places the zero-price finding in the same
invalid_prices list as negative and over-limit prices — there is no
separate warning band for it — and the rule reports failure, contrary
to the claim that a zero price alone never causes failure. -/
theorem zero_price_claim_counterexample :
    zero_price_product.price = 0 ∧
    (∀ p ∈ [zero_price_product, normal_product],
       0 ≤ p.price ∧ p.price ≤ 1000000) ∧
    invalid_prices [zero_price_product, normal_product] =
      [(zero_price_product, PriceIssue.zeroPrice)] ∧
    price_range_fails [zero_price_product, normal_product] = true := by
  refine ⟨rfl, by decide, ?_, ?_⟩ <;> decide

/-- Claim C1, amended: for every dataset in which the only price anomaly
is some product with price exactly 0 (all prices lie in [0, 1000000]),
the price-range rule records each zero-price product in its single
invalid_prices list (issue branch zeroPrice) and reports failure for the
dataset; the separate negative-or-zero price probe of the integration
suite fails on it as well. -/
theorem zero_price_causes_failure (ps : List Product)
    (_hrange : ∀ p ∈ ps, 0 ≤ p.price ∧ p.price ≤ 1000000)
    (hzero : ∃ p ∈ ps, p.price = 0) :
    price_range_fails ps = true ∧
    (∀ p ∈ ps, p.price = 0 →
       (p, PriceIssue.zeroPrice) ∈ invalid_prices ps) ∧
    negative_price_detection_fails ps = true := by
  obtain ⟨p0, hp0, hz0⟩ := hzero
  have hmem : ∀ p ∈ ps, p.price = 0 →
      (p, PriceIssue.zeroPrice) ∈ invalid_prices ps := by
    intro p hp hz
    apply List.mem_filterMap.mpr
    exact ⟨p, hp, by rw [price_issue_of_zero p hz]; rfl⟩
  refine ⟨?_, hmem, ?_⟩
  · have h := hmem p0 hp0 hz0
    simp only [price_range_fails, Bool.not_eq_true']
    exact List.isEmpty_eq_false_iff_exists_mem.mpr ⟨_, h⟩
  · have h : p0 ∈ invalid_price_products ps := by
      apply List.mem_filter.mpr
      exact ⟨hp0, by simp [hz0]⟩
    simp only [negative_price_detection_fails, Bool.not_eq_true']
    exact List.isEmpty_eq_false_iff_exists_mem.mpr ⟨_, h⟩

/-- Witness for the amended C1 at a concrete dataset. -/
theorem zero_price_causes_failure_witness :
    (∀ p ∈ [zero_price_product, normal_product],
       0 ≤ p.price ∧ p.price ≤ 1000000) ∧
    (∃ p ∈ [zero_price_product, normal_product], p.price = 0) ∧
    price_range_fails [zero_price_product, normal_product] = true :=
  ⟨by decide, ⟨zero_price_product, by decide, by decide⟩,
   (zero_price_causes_failure [zero_price_product, normal_product]
     (by decide) ⟨zero_price_product, by decide, by decide⟩).1⟩

/-- Claim C10: a user whose age is absent is flagged neither as invalid
nor as a minor account, and a dataset whose non-null ages all lie in
[0, 120] passes the age rule regardless of how many ages are null. -/
theorem null_age_never_flagged (users : List User) :
    (∀ u, u.age = none →
       u ∉ invalid_ages users ∧ u ∉ suspicious_ages users) ∧
    ((∀ u ∈ users, ∀ a, u.age = some a → 0 ≤ a ∧ a ≤ 120) →
       age_range_fails users = false) := by
  constructor
  · intro u hu
    constructor
    · intro hmem
      have := (List.mem_filter.mp hmem).2
      simp [age_is_invalid, hu] at this
    · intro hmem
      have := (List.mem_filter.mp hmem).2
      simp [age_is_suspicious, hu] at this
  · intro hbound
    have hnil : invalid_ages users = [] := by
      apply List.filter_eq_nil_iff.mpr
      intro u hu
      simp only [Bool.not_eq_true]
      cases hage : u.age with
      | none => simp [age_is_invalid, hage]
      | some a =>
          have := hbound u hu a hage
          simp only [age_is_invalid, hage, decide_eq_true_eq,
            decide_eq_false_iff_not]
          omega
    simp [age_range_fails, hnil]

/-- Witness for C10 at a concrete dataset with one null age and one
in-range age. -/
theorem null_age_never_flagged_witness :
    ⟨1, "N", [], 0, true, none⟩ ∉
      invalid_ages [⟨1, "N", [], 0, true, none⟩,
                    ⟨2, "O", [], 0, true, some 50⟩] ∧
    age_range_fails [⟨1, "N", [], 0, true, none⟩,
                     ⟨2, "O", [], 0, true, some 50⟩] = false :=
  ⟨((null_age_never_flagged _).1 _ rfl).1,
   (null_age_never_flagged _).2 (by decide)⟩

/-- Claim C4: the total-consistency rule flags an order exactly when the
absolute gap between the stored total and the item sum exceeds 0.01, the
report carries the stored value, the computed value and the signed
difference stored minus computed, and Scenario B (total 100.00 with a
single item 3 x 33.00) is flagged with computed 99.00 and difference
1.00, making the check fail. -/
theorem order_total_consistency_rule :
    (∀ orders m, m ∈ total_inconsistencies orders ↔
       ∃ o ∈ orders, 1/100 < |o.total_amount - calculated_total o| ∧
         m = ⟨o.id, o.total_amount, calculated_total o,
              o.total_amount - calculated_total o⟩) ∧
    (∀ orders, order_totals_fails orders = true ↔
       ∃ o ∈ orders, 1/100 < |o.total_amount - calculated_total o|) ∧
    (calculated_total scenario_b_order = 99 ∧
     total_inconsistencies [scenario_b_order] = [⟨7, 100, 99, 1⟩] ∧
     order_totals_fails [scenario_b_order] = true) := by
  have hmem : ∀ orders m, m ∈ total_inconsistencies orders ↔
      ∃ o ∈ orders, 1/100 < |o.total_amount - calculated_total o| ∧
        m = ⟨o.id, o.total_amount, calculated_total o,
             o.total_amount - calculated_total o⟩ := by
    intro orders m
    simp only [total_inconsistencies, List.mem_filterMap]
    constructor
    · rintro ⟨o, ho, hg⟩
      by_cases h : 1/100 < |o.total_amount - calculated_total o|
      · rw [if_pos h] at hg
        exact ⟨o, ho, h, (Option.some_inj.mp hg).symm⟩
      · rw [if_neg h] at hg
        cases hg
    · rintro ⟨o, ho, h, rfl⟩
      exact ⟨o, ho, by rw [if_pos h]⟩
  have hcalc : calculated_total scenario_b_order = 99 := by
    simp [calculated_total, scenario_b_order]
    norm_num
  refine ⟨hmem, ?_, hcalc, ?_, ?_⟩
  · intro orders
    simp only [order_totals_fails, Bool.not_eq_true']
    rw [List.isEmpty_eq_false_iff_exists_mem]
    constructor
    · rintro ⟨m, hm⟩
      obtain ⟨o, ho, h, _⟩ := (hmem orders m).mp hm
      exact ⟨o, ho, h⟩
    · rintro ⟨o, ho, h⟩
      exact ⟨_, (hmem orders _).mpr ⟨o, ho, h, rfl⟩⟩
  · simp only [total_inconsistencies, List.filterMap_cons,
      List.filterMap_nil]
    rw [if_pos]
    · rw [hcalc]
      show [(⟨scenario_b_order.id, scenario_b_order.total_amount, 99,
             scenario_b_order.total_amount - 99⟩ : TotalMismatch)] =
           [⟨7, 100, 99, 1⟩]
      norm_num [scenario_b_order]
    · rw [hcalc]
      show (1:ℚ)/100 < |scenario_b_order.total_amount - 99|
      norm_num [scenario_b_order]
  · simp only [order_totals_fails, Bool.not_eq_true']
    apply List.isEmpty_eq_false_iff_exists_mem.mpr
    refine ⟨⟨7, 100, 99, 1⟩, ?_⟩
    apply (hmem _ _).mpr
    refine ⟨scenario_b_order, List.mem_cons_self _ _, ?_, ?_⟩
    · rw [hcalc]
      show (1:ℚ)/100 < |scenario_b_order.total_amount - 99|
      norm_num [scenario_b_order]
    · rw [hcalc]
      show (⟨7, 100, 99, 1⟩ : TotalMismatch) =
           ⟨scenario_b_order.id, scenario_b_order.total_amount, 99,
            scenario_b_order.total_amount - 99⟩
      norm_num [scenario_b_order]

/-- Claim C5: the duplicate-email rule groups users by lowercased email
and returns exactly the groups of count above 1; in a dataset where
exactly two users lower to jane at example dot com and every other
lowered email occurs at most once, the rule returns exactly that one
group, of size 2, and the check fails on it (Critical). -/
theorem duplicate_email_rule :
    (∀ (users : List User) e k, (e, k) ∈ duplicate_emails users ↔
       ((users.map lower_email).count e = k ∧ 1 < k)) ∧
    (∀ (users : List User) jane,
       (users.map lower_email).count jane = 2 →
       (∀ e, e ≠ jane → (users.map lower_email).count e ≤ 1) →
       duplicate_emails users = [(jane, 2)]) ∧
    (duplicate_emails [jane_upper, jane_lower] =
       [("jane@example.com".toList, 2)] ∧
     duplicate_emails_fails [jane_upper, jane_lower] = true) := by
  have hpair : ∀ (users : List User) e k,
      (e, k) ∈ email_counts users ↔
        (e ∈ users.map lower_email ∧ (users.map lower_email).count e = k) := by
    intro users e k
    simp only [email_counts, List.mem_map, List.mem_dedup]
    constructor
    · rintro ⟨e', he', heq⟩
      obtain ⟨rfl, rfl⟩ := Prod.mk.injEq .. ▸ And.intro
        (congrArg Prod.fst heq) (congrArg Prod.snd heq)
      exact ⟨he', rfl⟩
    · rintro ⟨he, rfl⟩
      exact ⟨e, he, rfl⟩
  constructor
  · intro users e k
    simp only [duplicate_emails, List.mem_filter, decide_eq_true_eq]
    rw [hpair]
    constructor
    · rintro ⟨⟨_, hc⟩, hk⟩
      exact ⟨hc, hk⟩
    · rintro ⟨hc, hk⟩
      refine ⟨⟨?_, hc⟩, hk⟩
      have : 0 < (users.map lower_email).count e := by omega
      exact List.count_pos_iff.mp this
  constructor
  · intro users jane h2 hother
    have hjmem : jane ∈ users.map lower_email :=
      List.count_pos_iff.mp (by omega)
    apply filter_eq_single
    · exact List.Nodup.map
        (fun a b hab => congrArg Prod.fst hab)
        (List.nodup_dedup _)
    · apply (hpair users jane 2).mpr
      exact ⟨hjmem, h2⟩
    · rfl
    · rintro ⟨e, k⟩ hb hne
      obtain ⟨he, hk⟩ := (hpair users e k).mp hb
      by_cases heq : e = jane
      · subst heq
        rw [h2] at hk
        exact absurd (by rw [hk]) hne
      · have := hother e heq
        simp only [decide_eq_false_iff_not, not_lt]
        omega
  · constructor
    · exact congrArg id (by decide)
    · decide

/-- Witness for C5: the two hypotheses of the general group statement are
discharged at the concrete case-variant pair. -/
theorem duplicate_email_rule_witness :
    duplicate_emails [jane_upper, jane_lower] =
      [("jane@example.com".toList, 2)] := by
  have hmap : [jane_upper, jane_lower].map lower_email =
      ["jane@example.com".toList, "jane@example.com".toList] := by decide
  apply duplicate_email_rule.2.1 [jane_upper, jane_lower]
    "jane@example.com".toList
  · rw [hmap]
    decide
  · intro e hne
    rw [hmap]
    have hnotmem : e ∉ ["jane@example.com".toList,
        "jane@example.com".toList] := by
      intro hmem
      rcases List.mem_cons.mp hmem with h | h
      · exact hne h
      · rcases List.mem_cons.mp h with h | h
        · exact hne h
        · cases h
    rw [List.count_eq_zero_of_not_mem hnotmem]
    omega

/-- Claim C6: orphan detection returns exactly the child records whose
foreign key matches no parent id (one entry per child occurrence, none
for resolved children), and in the scenario with a single order item
whose order_id matches no order, the item check returns exactly that
item (and fails, Critical) while the order-to-user check returns
nothing. -/
theorem referential_integrity_rule :
    (∀ (users : List User) (orders : List Order) o,
       o ∈ orphaned_orders users orders ↔
         (o ∈ orders ∧ ∀ u ∈ users, u.id ≠ o.user_id)) ∧
    (∀ (orders : List Order) (items : List OrderItem) it,
       it ∈ orphaned_order_items orders items ↔
         (it ∈ items ∧ ∀ o ∈ orders, o.id ≠ it.order_id)) ∧
    (∀ (orders : List Order) (items : List OrderItem) it,
       (∀ o ∈ orders, o.id ≠ it.order_id) →
       (orphaned_order_items orders items).count it = items.count it) ∧
    (orphaned_order_items [scenario_c_order] [resolved_item, orphan_item] =
       [orphan_item] ∧
     orphaned_orders [scenario_c_user] [scenario_c_order] = [] ∧
     orphaned_order_items_fails [scenario_c_order]
       [resolved_item, orphan_item] = true ∧
     orphaned_orders_fails [scenario_c_user] [scenario_c_order] = false) := by
  refine ⟨?_, ?_, ?_, by decide, by decide, by decide, by decide⟩
  · intro users orders o
    simp [orphaned_orders, List.mem_filter]
  · intro orders items it
    simp [orphaned_order_items, List.mem_filter]
  · intro orders items it hno
    apply List.count_filter
    simp only [Bool.not_eq_true', List.any_eq_false, beq_iff_eq]
    exact hno

/-- Witness for the count-preservation part of C6 at the concrete orphan
scenario. -/
theorem referential_integrity_rule_witness :
    (orphaned_order_items [scenario_c_order]
       [resolved_item, orphan_item]).count orphan_item =
      [resolved_item, orphan_item].count orphan_item :=
  referential_integrity_rule.2.2.1 [scenario_c_order]
    [resolved_item, orphan_item] orphan_item (by decide)

/-- Claim C7: the suspicious-email rule fails the batch exactly when the
suspicious count exceeds one tenth of the scanned population; with 15
suspicious users out of 100 it fails, and with 5 out of 100 it passes
while still listing exactly the 5 suspicious users. -/
theorem suspicious_email_threshold :
    (∀ users : List User, suspicious_emails_fails users = true ↔
       users.length < 10 * (suspicious_emails users).length) ∧
    ((suspicious_emails users_15_of_100).length = 15 ∧
     users_15_of_100.length = 100 ∧
     suspicious_emails_fails users_15_of_100 = true) ∧
    ((suspicious_emails users_5_of_100).length = 5 ∧
     users_5_of_100.length = 100 ∧
     suspicious_emails users_5_of_100 = (List.range 5).map sus_user ∧
     suspicious_emails_fails users_5_of_100 = false) := by
  have hiff : ∀ users : List User, suspicious_emails_fails users = true ↔
      users.length < 10 * (suspicious_emails users).length := by
    intro users
    have hq : ((users.length : ℚ) * (1/10) <
        ((suspicious_emails users).length : ℚ)) ↔
        users.length < 10 * (suspicious_emails users).length := by
      rw [mul_one_div, div_lt_iff₀ (by norm_num : (0:ℚ) < 10)]
      rw [show (((suspicious_emails users).length : ℚ) * 10) =
            ((10 * (suspicious_emails users).length : ℕ) : ℚ) by
          push_cast; ring]
      exact Nat.cast_lt
    simpa [suspicious_emails_fails, decide_eq_true_eq] using hq
  have h15 : (suspicious_emails users_15_of_100).length = 15 := by decide
  have hn15 : users_15_of_100.length = 100 := by decide
  have h5 : (suspicious_emails users_5_of_100).length = 5 := by decide
  have hn5 : users_5_of_100.length = 100 := by decide
  refine ⟨hiff, ⟨h15, hn15, ?_⟩, ⟨h5, hn5, by decide, ?_⟩⟩
  · apply (hiff users_15_of_100).mpr
    rw [h15, hn15]
    omega
  · rw [Bool.eq_false_iff]
    intro htrue
    have := (hiff users_5_of_100).mp htrue
    rw [h5, hn5] at this
    omega

/-- Witness for C7: the threshold iff applied at the concrete
15-of-100 dataset. -/
theorem suspicious_email_threshold_witness :
    suspicious_emails_fails users_15_of_100 = true :=
  (suspicious_email_threshold.1 users_15_of_100).mpr (by decide)

/-- Characterisation of the adjacent-pair scan: a pair is emitted exactly
when its two components sit at consecutive positions and satisfy the
near-duplicate test. -/
theorem mem_adjacent_duplicate_orders (l : List Order) (a b : Order) :
    (a, b) ∈ adjacent_duplicate_orders l ↔
      ∃ i, l[i]? = some a ∧ l[i+1]? = some b ∧
        is_near_duplicate a b = true := by
  induction l with
  | nil => simp [adjacent_duplicate_orders]
  | cons x t ih =>
      cases t with
      | nil => simp [adjacent_duplicate_orders]
      | cons y rest =>
          show (a, b) ∈
              (if is_near_duplicate x y then [(x, y)] else []) ++
                adjacent_duplicate_orders (y :: rest) ↔ _
          rw [List.mem_append]
          constructor
          · rintro (hin | hin)
            · by_cases h : is_near_duplicate x y
              · rw [if_pos h] at hin
                rw [List.mem_singleton, Prod.mk.injEq] at hin
                obtain ⟨rfl, rfl⟩ := hin
                exact ⟨0, by simp, by simp, h⟩
              · rw [if_neg h] at hin
                cases hin
            · obtain ⟨j, hj1, hj2, hnd⟩ := ih.mp hin
              exact ⟨j + 1, by simpa using hj1, by simpa using hj2, hnd⟩
          · rintro ⟨i, h1, h2, hnd⟩
            cases i with
            | zero =>
                obtain rfl : x = a := by simpa using h1
                obtain rfl : y = b := by simpa using h2
                left
                rw [if_pos hnd]
                exact List.mem_singleton.mpr rfl
            | succ j =>
                right
                exact ih.mpr ⟨j, by simpa using h1, by simpa using h2, hnd⟩

/-- The order-key relation is total. -/
theorem order_key_le_total (a b : Order) :
    (order_key_le a b || order_key_le b a) = true := by
  simp only [order_key_le, Bool.or_eq_true, Bool.and_eq_true,
    decide_eq_true_eq, beq_iff_eq]
  rcases Nat.lt_trichotomy a.user_id b.user_id with h | h | h
  · exact Or.inl (Or.inl h)
  · rcases le_total a.created_at b.created_at with ht | ht
    · exact Or.inl (Or.inr ⟨h, ht⟩)
    · exact Or.inr (Or.inr ⟨h.symm, ht⟩)
  · exact Or.inr (Or.inl h)

/-- The order-key relation is transitive. -/
theorem order_key_le_trans (a b c : Order) :
    order_key_le a b = true → order_key_le b c = true →
    order_key_le a c = true := by
  simp only [order_key_le, Bool.or_eq_true, Bool.and_eq_true,
    decide_eq_true_eq, beq_iff_eq]
  rintro (hab | ⟨hab, tab⟩) (hbc | ⟨hbc, tbc⟩)
  · exact Or.inl (Nat.lt_trans hab hbc)
  · exact Or.inl (hbc ▸ hab)
  · exact Or.inl (hab ▸ hbc)
  · exact Or.inr ⟨hab.trans hbc, tab.trans tbc⟩

/-- Claim C8: the near-duplicate-order rule sorts orders by
(user_id, created_at) — the output is a permutation of the input,
pairwise ordered under the key — and flags a pair exactly when the two
orders are adjacent in the sorted sequence with equal user_id, exactly
equal total_amount, and timestamps strictly under 60 seconds apart; the
check never reports failure (its findings are advisory only). -/
theorem near_duplicate_order_rule :
    (∀ (orders : List Order) a b,
       (a, b) ∈ exact_duplicate_orders orders ↔
         ∃ i, (sorted_orders orders)[i]? = some a ∧
              (sorted_orders orders)[i+1]? = some b ∧
              (a.user_id = b.user_id ∧ a.total_amount = b.total_amount ∧
               |a.created_at - b.created_at| < 60)) ∧
    (∀ orders : List Order, (sorted_orders orders).Perm orders) ∧
    (∀ orders : List Order,
       (sorted_orders orders).Pairwise fun a b =>
         order_key_le a b = true) ∧
    (∀ orders : List Order, exact_duplicate_orders_fails orders = false) := by
  refine ⟨?_, ?_, ?_, fun _ => rfl⟩
  · intro orders a b
    rw [exact_duplicate_orders,
      mem_adjacent_duplicate_orders (sorted_orders orders) a b]
    simp only [is_near_duplicate, Bool.and_eq_true, decide_eq_true_eq,
      beq_iff_eq, and_assoc]
  · intro orders
    exact List.mergeSort_perm orders order_key_le
  · intro orders
    exact List.sorted_mergeSort order_key_le_trans order_key_le_total orders

/-- Claim C2, counterexample: a store with foreign-key enforcement off
(as in SQLite by default) accepts the order with the dangling user_id,
yet the probe reports no failure — it only prints a warning — contrary
to the claim that every probe reports failure when the store accepts the
violating record. -/
theorem fk_probe_claim_counterexample :
    (fk_probe false demo_users ⟨demo_orders, []⟩).accepted = true ∧
    order_fk_violates demo_users demo_orders probe_order = true ∧
    (fk_probe false demo_users ⟨demo_orders, []⟩).test_failed = false := by
  refine ⟨?_, ?_, ?_⟩ <;> decide

/-- Claim C2, amended: the UNIQUE-constraint probes (duplicate email,
duplicate sku) report failure via pytest.fail whenever the store accepts
the violating record, and pass when the store rejects it; the dangling
user_id probe, by contrast, never reports failure — on acceptance it
only warns and rolls back. -/
theorem unique_probes_fail_on_acceptance :
    (∀ (enforced : Bool) (s : Session User) (u : User),
       (duplicate_email_probe enforced s u).accepted = true →
       (duplicate_email_probe enforced s u).test_failed = true) ∧
    (∀ (enforced : Bool) (s : Session Product) (p : Product),
       (duplicate_sku_probe enforced s p).accepted = true →
       (duplicate_sku_probe enforced s p).test_failed = true) ∧
    (∀ (s : Session User) (u : User),
       s.pending = [] → email_violates s.committed u = true →
       (duplicate_email_probe true s u).accepted = false ∧
       (duplicate_email_probe true s u).test_failed = false) ∧
    (∀ (enforced : Bool) (users : List User) (s : Session Order),
       (fk_probe enforced users s).test_failed = false) := by
  refine ⟨?_, ?_, ?_, ?_⟩
  · intro enforced s u
    simp only [duplicate_email_probe]
    cases h : (session_commit enforced email_violates
        (session_add s u)).1 <;> simp [h]
  · intro enforced s p
    simp only [duplicate_sku_probe]
    cases h : (session_commit enforced sku_violates
        (session_add s p)).1 <;> simp [h]
  · intro s u hp hv
    simp [duplicate_email_probe, session_commit, session_add, hp, hv]
  · intro enforced users s
    simp only [fk_probe]
    cases h : (session_commit enforced (order_fk_violates users)
        (session_add s probe_order)).1 <;> simp [h]

/-- Witness for the amended C2: the duplicate-email probe against a
non-enforcing store accepts the duplicate and the test fails. -/
theorem unique_probes_fail_on_acceptance_witness :
    (duplicate_email_probe false ⟨demo_users, []⟩
       ⟨5, "Bob", "alice@example.com".toList, 0, true, some 25⟩).test_failed
      = true :=
  unique_probes_fail_on_acceptance.1 false ⟨demo_users, []⟩
    ⟨5, "Bob", "alice@example.com".toList, 0, true, some 25⟩ (by decide)

/-- Claim C3, evaluated at the failing input: when the store accepts the
probe's violating insert (foreign keys unenforced, or unique checks
unenforced), the insert is committed before the rollback call, so the
probe's record persists in the committed store — the session rollback
after a successful commit removes nothing.  On the rejected path the
committed rows are indeed left unchanged. -/
theorem probe_rollback_persists_record :
    ((fk_probe false demo_users ⟨demo_orders, []⟩).final.committed =
       demo_orders ++ [probe_order]) ∧
    ((fk_probe true demo_users ⟨demo_orders, []⟩).final.committed =
       demo_orders) ∧
    ((duplicate_sku_probe false ⟨demo_products, []⟩
        dup_sku_product).final.committed =
       demo_products ++ [dup_sku_product]) ∧
    ((duplicate_sku_probe true ⟨demo_products, []⟩
        dup_sku_product).final.committed = demo_products) := by
  refine ⟨?_, ?_, ?_, ?_⟩ <;> decide

/-- Decomposition of a successful local-part scan: the consumed prefix is
made of local characters and ends at the at sign. -/
theorem after_at_local_spec (cs r : List Char)
    (h : after_at_local cs = some r) :
    ∃ m, cs = m ++ '@' :: r ∧ m.all is_local_char = true := by
  induction cs generalizing r with
  | nil => cases h
  | cons c cs ih =>
      rw [after_at_local] at h
      by_cases hat : c == '@'
      · rw [if_pos hat] at h
        obtain rfl := Option.some_inj.mp h
        exact ⟨[], by simp [beq_iff_eq.mp hat], rfl⟩
      · rw [if_neg hat] at h
        by_cases hloc : is_local_char c
        · rw [if_pos hloc] at h
          obtain ⟨m, rfl, hm⟩ := ih r h
          exact ⟨c :: m, rfl, by simp [List.all_cons, hloc, hm]⟩
        · rw [if_neg hloc] at h
          cases h

/-- Decomposition of a successful domain match: the remainder splits as a
non-empty run of domain characters, a literal dot, and an alphabetic tld
of length at least two. -/
theorem domain_match_spec (r : List Char) (h : domain_match r = true) :
    ∃ d t, r = d ++ '.' :: t ∧ d ≠ [] ∧ d.all is_domain_char = true ∧
      t.all is_ascii_alpha = true ∧ 2 ≤ t.length := by
  rw [domain_match] at h
  simp only [Bool.and_eq_true, decide_eq_true_eq] at h
  obtain ⟨hlen, hrest⟩ := h
  rcases hdrop : r.reverse.dropWhile is_ascii_alpha with _ | ⟨c, d⟩
  · rw [hdrop] at hrest
    cases hrest
  · rw [hdrop] at hrest
    rw [Bool.and_eq_true, Bool.and_eq_true] at hrest
    obtain ⟨⟨hc, hne⟩, hdall⟩ := hrest
    obtain rfl := beq_iff_eq.mp hc
    have hdne : d ≠ [] := by
      intro hnil
      rw [hnil] at hne
      cases hne
    have hsplit : r.reverse =
        r.reverse.takeWhile is_ascii_alpha ++ '.' :: d := by
      rw [← hdrop, List.takeWhile_append_dropWhile]
    have hr : r = d.reverse ++ '.' ::
        (r.reverse.takeWhile is_ascii_alpha).reverse := by
      conv_lhs => rw [← List.reverse_reverse r, hsplit]
      simp
    refine ⟨d.reverse, (r.reverse.takeWhile is_ascii_alpha).reverse,
      hr, by simpa using hdne, ?_, ?_, ?_⟩
    · rw [List.all_reverse]
      exact hdall
    · rw [List.all_reverse]
      apply List.all_eq_true.mpr
      intro x hx
      exact List.mem_takeWhile_imp hx
    · rw [List.length_reverse]
      exact hlen

/-- Decomposition of a core regex match: the whole string splits as a
non-empty local part, the at sign, and a matching domain remainder. -/
theorem regex_core_match_spec (s : List Char)
    (h : regex_core_match s = true) :
    ∃ l r, s = l ++ '@' :: r ∧ l ≠ [] ∧ l.all is_local_char = true ∧
      domain_match r = true := by
  rcases s with _ | ⟨c, cs⟩
  · cases h
  · rw [regex_core_match] at h
    simp only [Bool.and_eq_true] at h
    obtain ⟨hloc, hrest⟩ := h
    rcases hafter : after_at_local cs with _ | r
    · rw [hafter] at hrest
      cases hrest
    · rw [hafter] at hrest
      obtain ⟨m, rfl, hm⟩ := after_at_local_spec cs r hafter
      exact ⟨c :: m, r, rfl, by simp,
        by simp [List.all_cons, hloc, hm], hrest⟩

/-- Characters of the local class are not Python whitespace (their code
points sit strictly between 32 and 123). -/
theorem local_char_not_space (c : Char) (h : is_local_char c = true) :
    py_is_space c = false := by
  have hval : 32 < c.toNat ∧ c.toNat ≤ 122 := by
    simp only [is_local_char, is_ascii_alpha, is_ascii_digit,
      Bool.or_eq_true, Bool.and_eq_true, decide_eq_true_eq,
      beq_iff_eq] at h
    rcases h with (((((((h | h) | h) | h) | h) | h) | h) | h)
    · omega
    · omega
    · omega
    · subst h
      exact ⟨by decide, by decide⟩
    · subst h
      exact ⟨by decide, by decide⟩
    · subst h
      exact ⟨by decide, by decide⟩
    · subst h
      exact ⟨by decide, by decide⟩
    · subst h
      exact ⟨by decide, by decide⟩
  cases hps : py_is_space c with
  | false => rfl
  | true =>
      exfalso
      simp only [py_is_space, Bool.or_eq_true, Bool.and_eq_true,
        decide_eq_true_eq, beq_iff_eq] at hps
      omega

/-- Characters of the domain class are not Python whitespace either. -/
theorem domain_char_not_space (c : Char) (h : is_domain_char c = true) :
    py_is_space c = false := by
  apply local_char_not_space
  simp only [is_domain_char, Bool.or_eq_true] at h
  simp only [is_local_char, Bool.or_eq_true]
  tauto

/-- Python split on a string that does not hold the separator returns the
single whole piece. -/
theorem py_split_of_not_mem (sep : Char) (l : List Char) (h : sep ∉ l) :
    py_split sep l = [l] := by
  induction l with
  | nil => rfl
  | cons c cs ih =>
      have hcs : sep ∉ cs := fun hm => h (List.mem_cons_of_mem c hm)
      have hc : ¬(c == sep) = true := by
        simp only [beq_iff_eq]
        intro hcc
        exact h (hcc ▸ List.mem_cons_self c cs)
      rw [py_split, if_neg hc, ih hcs]

/-- Python split at the first separator occurrence: the separator-free
prefix becomes the first piece. -/
theorem py_split_append (sep : Char) (L R : List Char) (h : sep ∉ L) :
    py_split sep (L ++ sep :: R) = L :: py_split sep R := by
  induction L with
  | nil =>
      show py_split sep (sep :: R) = [] :: py_split sep R
      rw [py_split, if_pos (beq_self_eq_true sep)]
  | cons c cs ih =>
      have hcs : sep ∉ cs := fun hm => h (List.mem_cons_of_mem c hm)
      have hc : ¬(c == sep) = true := by
        simp only [beq_iff_eq]
        intro hcc
        exact h (hcc ▸ List.mem_cons_self c cs)
      show py_split sep (c :: (cs ++ sep :: R)) =
        (c :: cs) :: py_split sep R
      rw [py_split, if_neg hc, ih hcs]

/-- dropWhile is the identity when no element satisfies the predicate. -/
theorem dropWhile_eq_self_of_none (p : Char → Bool) (l : List Char)
    (h : ∀ c ∈ l, p c = false) : l.dropWhile p = l := by
  cases l with
  | nil => rfl
  | cons c cs =>
      rw [List.dropWhile_cons,
        if_neg (by simp [h c (List.mem_cons_self c cs)])]

/-- Python strip is the identity on strings free of whitespace. -/
theorem py_strip_eq_self (s : List Char)
    (h : ∀ c ∈ s, py_is_space c = false) : py_strip s = s := by
  show ((s.dropWhile py_is_space).reverse.dropWhile py_is_space).reverse = s
  rw [dropWhile_eq_self_of_none _ s h,
    dropWhile_eq_self_of_none _ s.reverse
      (fun c hc => h c (List.mem_reverse.mp hc)),
    List.reverse_reverse]

/-- A string matching the core email regex passes all three weaker email
checks: it has exactly one at sign with non-empty sides and a dotted
domain, it equals its stripped form, and it holds no space. -/
theorem core_match_weak_checks (s : List Char)
    (h : regex_core_match s = true) :
    at_symbol_missing s = false ∧ domain_structure_violation s = false ∧
    strip_violation s = false ∧ space_violation s = false := by
  obtain ⟨l, r, rfl, hlne, hlall, hdm⟩ := regex_core_match_spec s h
  obtain ⟨d, t, rfl, hdne, hdall, htall, _htlen⟩ := domain_match_spec r hdm
  have hlmem : ∀ c ∈ l, is_local_char c = true :=
    fun c hc => List.all_eq_true.mp hlall c hc
  have hdmem : ∀ c ∈ d, is_domain_char c = true :=
    fun c hc => List.all_eq_true.mp hdall c hc
  have htmem : ∀ c ∈ t, is_ascii_alpha c = true :=
    fun c hc => List.all_eq_true.mp htall c hc
  have hatl : '@' ∉ l := fun hm => absurd (hlmem '@' hm) (by decide)
  have hatr : '@' ∉ d ++ '.' :: t := by
    intro hm
    rcases List.mem_append.mp hm with hm | hm
    · exact absurd (hdmem '@' hm) (by decide)
    · rcases List.mem_cons.mp hm with hm | hm
      · exact absurd hm (by decide)
      · exact absurd (htmem '@' hm) (by decide)
  have hcontains : (l ++ '@' :: (d ++ '.' :: t)).contains '@' = true :=
    List.elem_eq_true_of_mem
      (List.mem_append.mpr (Or.inr (List.mem_cons_self _ _)))
  have hall : ∀ c ∈ l ++ '@' :: (d ++ '.' :: t), py_is_space c = false := by
    intro c hc
    rcases List.mem_append.mp hc with hc | hc
    · exact local_char_not_space c (hlmem c hc)
    · rcases List.mem_cons.mp hc with rfl | hc
      · decide
      · rcases List.mem_append.mp hc with hc | hc
        · exact domain_char_not_space c (hdmem c hc)
        · rcases List.mem_cons.mp hc with rfl | hc
          · decide
          · refine domain_char_not_space c ?_
            simp [is_domain_char, htmem c hc]
  refine ⟨?_, ?_, ?_, ?_⟩
  · simp [at_symbol_missing, hcontains]
  · rw [domain_structure_violation, if_pos hcontains,
      py_split_append '@' l _ hatl, py_split_of_not_mem '@' _ hatr]
    have hlne' : l.isEmpty = false := by
      cases l
      · exact absurd rfl hlne
      · rfl
    have hrne' : (d ++ '.' :: t).isEmpty = false := by
      cases d <;> rfl
    have hdot : (d ++ '.' :: t).contains '.' = true :=
      List.elem_eq_true_of_mem
        (List.mem_append.mpr (Or.inr (List.mem_cons_self _ _)))
    simp [hlne', hrne', hdot]
  · simp [strip_violation, py_strip_eq_self _ hall]
  · show (l ++ '@' :: (d ++ '.' :: t)).contains ' ' = false
    cases hsp : (l ++ '@' :: (d ++ '.' :: t)).contains ' ' with
    | false => rfl
    | true =>
        exact absurd (hall ' ' (List.mem_of_elem_eq_true hsp)) (by decide)

/-- Claim C9, counterexample: the string a@b.cd followed by one newline
matches the full Python pattern check (the dollar anchor accepts a
single trailing newline) and passes the at-symbol and domain checks, yet
it differs from its whitespace-stripped form, so the whitespace rule
flags it. -/
theorem email_regex_claim_counterexample :
    py_fullmatch_email ("a@b.cd\n".toList) = true ∧
    strip_violation ("a@b.cd\n".toList) = true ∧
    at_symbol_missing ("a@b.cd\n".toList) = false ∧
    domain_structure_violation ("a@b.cd\n".toList) = false ∧
    space_violation ("a@b.cd\n".toList) = false := by
  refine ⟨?_, ?_, ?_, ?_, ?_⟩ <;> decide

/-- Claim C9, amended: for every email string that does not end in a
newline character, matching the full pattern check implies passing the
three weaker checks (at-sign structure, dotted domain, no whitespace);
the newline proviso is forced because the Python dollar anchor lets a
matching string end in one newline, which the strip check then flags. -/
theorem email_regex_implies_weak_checks (s : List Char)
    (hmatch : py_fullmatch_email s = true)
    (hnl : s.getLast? ≠ some '\n') :
    at_symbol_missing s = false ∧ domain_structure_violation s = false ∧
    strip_violation s = false ∧ space_violation s = false := by
  rw [py_fullmatch_email, Bool.or_eq_true] at hmatch
  rcases hmatch with hcore | htail
  · exact core_match_weak_checks s hcore
  · exfalso
    rcases hlast : s.getLast? with _ | c
    · rw [hlast] at htail
      cases htail
    · rw [hlast] at htail
      rw [Bool.and_eq_true, beq_iff_eq] at htail
      exact hnl (hlast.trans (by rw [htail.1]))

/-- Witness for the amended C9 at a concrete clean email. -/
theorem email_regex_implies_weak_checks_witness :
    strip_violation ("a@b.cd".toList) = false ∧
    space_violation ("a@b.cd".toList) = false :=
  ⟨(email_regex_implies_weak_checks ("a@b.cd".toList) (by decide)
      (by decide)).2.2.1,
   (email_regex_implies_weak_checks ("a@b.cd".toList) (by decide)
      (by decide)).2.2.2⟩
